import Mathlib

/-!
Verification of the game-state controller (`src/dynamodb/gameController.py`)
of the Workshop-TicTacToe-App repository.

The controller manages one sparse record per game in a key-value table and
performs conditional (compare-and-swap style) writes.  We embed the record as
a Lean structure (`Item`), each controller method as a pure function from the
record snapshot (plus the environmental inputs: the current timestamp string,
the backend behaviour, the save outcome) to its result, and the two-stream
recency merge (`mergeQueries`) as a recursive function over lists.
-/

/-- The nine board-cell attribute names used by the controller
(`TopLeft` .. `BottomRight`). -/
inductive Position where
  | topLeft | topMiddle | topRight
  | middleLeft | middleMiddle | middleRight
  | bottomLeft | bottomMiddle | bottomRight
deriving DecidableEq, Repr

/-- A game record.  Attributes that the table stores sparsely (the nine board
cells and `Result`) are `Option String`: `none` means the attribute is absent
from the item, mirroring boto items returning `None` for missing keys. -/
structure Item where
  gameId : String
  hostId : String
  opponentId : String
  oUser : String
  turn : String
  statusDate : String
  topLeft : Option String := none
  topMiddle : Option String := none
  topRight : Option String := none
  middleLeft : Option String := none
  middleMiddle : Option String := none
  middleRight : Option String := none
  bottomLeft : Option String := none
  bottomMiddle : Option String := none
  bottomRight : Option String := none
  result : Option String := none
deriving DecidableEq, Repr

/-- Read the board-cell attribute at a position. -/
def Item.getCell (item : Item) (p : Position) : Option String :=
  match p with
  | .topLeft => item.topLeft
  | .topMiddle => item.topMiddle
  | .topRight => item.topRight
  | .middleLeft => item.middleLeft
  | .middleMiddle => item.middleMiddle
  | .middleRight => item.middleRight
  | .bottomLeft => item.bottomLeft
  | .bottomMiddle => item.bottomMiddle
  | .bottomRight => item.bottomRight

/-- Write the board-cell attribute at a position (a `PUT` attribute update). -/
def Item.setCell (item : Item) (p : Position) (v : String) : Item :=
  match p with
  | .topLeft => { item with topLeft := some v }
  | .topMiddle => { item with topMiddle := some v }
  | .topRight => { item with topRight := some v }
  | .middleLeft => { item with middleLeft := some v }
  | .middleMiddle => { item with middleMiddle := some v }
  | .middleRight => { item with middleRight := some v }
  | .bottomLeft => { item with bottomLeft := some v }
  | .bottomMiddle => { item with bottomMiddle := some v }
  | .bottomRight => { item with bottomRight := some v }

/-- The DynamoDB `BEGINS_WITH` comparison on string attributes, stated over
the character lists of the strings so that it is kernel-computable. -/
def strBeginsWith (s pre : String) : Bool :=
  pre.toList.isPrefixOf s.toList

/-- How the storage backend behaves during one call: either it operates
normally (the conditional write succeeds or raises
`ConditionalCheckFailedException` according to the guard), or the call fails
at transport level (any other exception: unreachable backend, malformed
response, schema violation). -/
inductive DbBehavior where
  | normal
  | transportError
deriving DecidableEq, Repr

/-- `createNewGame(gameId, creator, invitee)`: builds the new item exactly as
the source dictionary literal does, with `StatusDate = "PENDING_" + now`,
`OUser = creator`, `Turn = invitee`, `OpponentId = invitee`; the nine cells
and `Result` are not supplied, hence absent. -/
def createNewGame (gameId creator invitee now : String) : Item :=
  { gameId := gameId
    hostId := creator
    statusDate := "PENDING_" ++ now
    oUser := creator
    turn := invitee
    opponentId := invitee }

/-- `acceptGameInvite(game)`: a conditional update setting
`StatusDate = "IN_PROGRESS_" + now`, guarded by `StatusDate BEGINS_WITH
"PENDING_"`.  Only `ConditionalCheckFailedException` is caught (returning
`False`); any other exception propagates, which we model as `Except.error`.
The returned item is the post-write state of the record. -/
def acceptGameInvite (item : Item) (now : String) (db : DbBehavior) :
    Except Unit (Bool × Item) :=
  match db with
  | .transportError => .error ()
  | .normal =>
    if strBeginsWith item.statusDate "PENDING_" then
      .ok (true, { item with statusDate := "IN_PROGRESS_" ++ now })
    else
      .ok (false, item)

/-- `rejectGameInvite(game)`: a conditional delete guarded by `StatusDate
BEGINS_WITH "PENDING_"`.  The source wraps the call in `except Exception:
return False`, so every exception — the conditional-check failure and any
transport-level failure alike — becomes the `False` return; no error ever
propagates.  The `Option Item` is the record after the call (`none` =
deleted). -/
def rejectGameInvite (item : Item) (db : DbBehavior) :
    Except Unit (Bool × Option Item) :=
  match db with
  | .transportError => .ok (false, some item)
  | .normal =>
    if strBeginsWith item.statusDate "PENDING_" then
      .ok (true, none)
    else
      .ok (false, some item)

/-- The three-part conditional-write guard of `updateBoardAndTurn`:
`StatusDate BEGINS_WITH "IN_PROGRESS_"`, `Turn` equals the acting player, and
the target cell attribute does not exist. -/
def moveGuard (item : Item) (position : Position) (current_player : String) : Prop :=
  strBeginsWith item.statusDate "IN_PROGRESS_" = true ∧
  item.turn = current_player ∧
  item.getCell position = none

instance (item : Item) (position : Position) (p : String) :
    Decidable (moveGuard item position p) := by
  unfold moveGuard; infer_instance

/-- `updateBoardAndTurn(item, position, current_player)`: the conditional
write applying a move.  The source first evaluates
`statusDate.split("_")[1]`, which raises `IndexError` when `StatusDate`
contains no underscore — modelled as `none` (exception, no write attempted).
Otherwise the write commits iff the three-part guard holds: the cell is set
to `"O"` when `OUser == current_player` and `"X"` otherwise, and `Turn` is
set to `OpponentId` when the acting player is `HostId`, else to `HostId`.
On guard failure (`ConditionalCheckFailedException`) it returns `False` and
the record is untouched. -/
def updateBoardAndTurn (item : Item) (position : Position)
    (current_player : String) : Option (Bool × Item) :=
  if item.statusDate.toList.contains '_' = false then
    none
  else
    let player_one := item.hostId
    let player_two := item.opponentId
    let representation := if item.oUser = current_player then "O" else "X"
    let next_player := if current_player = player_one then player_two else player_one
    if moveGuard item position current_player then
      some (true, { item.setCell position representation with turn := next_player })
    else
      some (false, item)

/-- The outcome of one `changeGameToFinishedState` call: the returned
boolean, the record after the call, and whether a write (`item.save()`) was
issued. -/
structure FinishOutcome where
  ret : Bool
  item : Item
  wrote : Bool
deriving DecidableEq, Repr

/-- `changeGameToFinishedState(item, result, current_user)`: returns `True`
immediately (no write) when `Result` is already set; otherwise sets
`StatusDate = "FINISHED" + "_" + now` and `Turn = "N/A"`, computes `Result`
(`"Tie"` stays as is, `"Win"` ⇒ the current user, anything else ⇒ the other
player), and saves unconditionally, returning the save outcome. -/
def changeGameToFinishedState (item : Item) (result current_user now : String)
    (saveOk : Bool) : FinishOutcome :=
  if item.result ≠ none then
    ⟨true, item, false⟩
  else
    let item1 := { item with statusDate := "FINISHED" ++ "_" ++ now, turn := "N/A" }
    let finalResult :=
      if result = "Tie" then result
      else if result = "Win" then current_user
      else if item.hostId = current_user then item.opponentId
      else item.hostId
    ⟨saveOk, { item1 with result := some finalResult }, true⟩

/-- Modelled from the spec: the `Game` wrapper class that implements the
`game_one > game_two` comparison of `mergeQueries` is not among the provided
sources.  Per the spec the two pending heads are compared by `StatusDate`
using string comparison, and ties (equal `StatusDate`) are broken by
preferring the sequence passed as the first argument; given the source's
`if game_one > game_two: emit game_one else: emit game_two` shape, the tie
rule pins the operator down to holding on equal `StatusDate`, i.e. the
non-strict lexicographic comparison. -/
def gameGreater (a b : Item) : Bool :=
  decide (b.statusDate ≤ a.statusDate)

/-- The `for rest in <source>` drain loop at the end of either
`StopIteration` branch of `mergeQueries`: before each element it stops only
when `len(games) == limit` holds exactly, otherwise appends. -/
def drain (games : List Item) (rest : List Item) (limit : Nat) : List Item :=
  match rest with
  | [] => games
  | r :: rs =>
    if games.length = limit then games
    else drain (games ++ [r]) rs limit

/-- The `while len(games) <= limit` loop of `mergeQueries`.  `host`/`opp`
are the unconsumed remainders of the two iterators, `g1`/`g2` the pending
heads (`game_one`/`game_two`), `games` the accumulator.  When a side's
iterator is exhausted while its pending head is empty, the other pending
head (if any) is appended unconditionally and the other iterator is drained;
otherwise the greater head is appended and its slot cleared. -/
def mergeLoop (host opp : List Item) (g1 g2 : Option Item)
    (games : List Item) (limit : Nat) : List Item :=
  if hle : games.length ≤ limit then
    match g1, host with
    | none, [] =>
      drain (match g2 with | some g => games ++ [g] | none => games) opp limit
    | none, x :: hs =>
      (match g2, opp with
       | none, [] => drain (games ++ [x]) hs limit
       | none, y :: os =>
         if gameGreater x y then mergeLoop hs os none (some y) (games ++ [x]) limit
         else mergeLoop hs os (some x) none (games ++ [y]) limit
       | some b, os =>
         if gameGreater x b then mergeLoop hs os none (some b) (games ++ [x]) limit
         else mergeLoop hs os (some x) none (games ++ [b]) limit)
    | some a, hs =>
      (match g2, opp with
       | none, [] => drain (games ++ [a]) hs limit
       | none, y :: os =>
         if gameGreater a y then mergeLoop hs os none (some y) (games ++ [a]) limit
         else mergeLoop hs os (some a) none (games ++ [y]) limit
       | some b, os =>
         if gameGreater a b then mergeLoop hs os none (some b) (games ++ [a]) limit
         else mergeLoop hs os (some a) none (games ++ [b]) limit)
  else games
termination_by limit + 1 - games.length
decreasing_by
  all_goals simp [List.length_append]; omega

/-- `mergeQueries(host, opp, limit)`: merge the two descending streams into
the accumulator list, starting with both pending heads empty. -/
def mergeQueries (host opp : List Item) (limit : Nat) : List Item :=
  mergeLoop host opp none none [] limit

/-- `getGameInvites(user)`: `None` user short-circuits to the empty list
before any query; otherwise the query on the opponent index is consumed by a
`for i in range(10)` loop, i.e. at most ten invites are taken. The backend
query is abstracted as a function from the user to the result stream. -/
def getGameInvites (user : Option String) (queryInvites : String → List Item) :
    List Item :=
  match user with
  | none => []
  | some u => (queryInvites u).take 10

/-- `getGamesWithStatus(user, status)`: `None` user short-circuits to the
empty list before either query; otherwise the host-index and opponent-index
streams are merged with the default limit 10.  The two backend queries are
abstracted as functions from user and status to the result streams. -/
def getGamesWithStatus (user : Option String) (status : String)
    (queryHost queryOpp : String → String → List Item) : List Item :=
  match user with
  | none => []
  | some u => mergeQueries (queryHost u status) (queryOpp u status) 10

/-- One successful move: `updateBoardAndTurn` committed (returned `True`),
taking the record from `s` to `t`. -/
def SuccessfulMove (s t : Item) : Prop :=
  ∃ pos p, updateBoardAndTurn s pos p = some (true, t)

/-- `MoveChain s n t`: `n` consecutive successful moves lead from record `s`
to record `t`. -/
inductive MoveChain : Item → Nat → Item → Prop where
  | refl (s : Item) : MoveChain s 0 s
  | step {s : Item} {n : Nat} {t u : Item} :
      MoveChain s n t → SuccessfulMove t u → MoveChain s (n + 1) u

/-- A concrete in-progress record used by witnesses: host `"h"` to move,
`TopLeft` already occupied. -/
def demoOccupied : Item :=
  { gameId := "g1", hostId := "h", opponentId := "o", oUser := "h"
    turn := "h", statusDate := "IN_PROGRESS_2024", topLeft := some "X" }

/-- A concrete in-progress record used by witnesses: board empty, host `"h"`
to move. -/
def demoOpen : Item :=
  { gameId := "g2", hostId := "h", opponentId := "o", oUser := "h"
    turn := "h", statusDate := "IN_PROGRESS_2024" }

/-- A concrete finished record used by witnesses. -/
def demoFinished : Item :=
  { gameId := "g3", hostId := "h", opponentId := "o", oUser := "h"
    turn := "N/A", statusDate := "FINISHED_2024", result := some "h" }

/-- Concrete records for exercising the merge, distinguished only by
`StatusDate` (and `GameId`). -/
def demoGame (gid sd : String) : Item :=
  { gameId := gid, hostId := "h", opponentId := "o", oUser := "h"
    turn := "h", statusDate := sd }

/-- The record of a freshly created and then accepted concrete invite. -/
def demoAccepted : Item :=
  { createNewGame "g" "h" "o" "t0" with statusDate := "IN_PROGRESS_" ++ "t1" }

/-- `demoAccepted` after one successful move by the invitee `"o"`. -/
def demoMoved : Item :=
  { demoAccepted.setCell Position.topLeft "X" with turn := "h" }

/-! ## Helper lemmas about board cells and the move's case analysis -/

theorem getCell_setCell_self (item : Item) (p : Position) (v : String) :
    (item.setCell p v).getCell p = some v := by
  cases p <;> rfl

theorem getCell_setCell_ne (item : Item) (p q : Position) (v : String)
    (h : q ≠ p) : (item.setCell p v).getCell q = item.getCell q := by
  cases p <;> cases q <;> first | rfl | exact absurd rfl h

theorem setCell_gameId (item : Item) (p : Position) (v : String) :
    (item.setCell p v).gameId = item.gameId := by cases p <;> rfl

theorem setCell_hostId (item : Item) (p : Position) (v : String) :
    (item.setCell p v).hostId = item.hostId := by cases p <;> rfl

theorem setCell_opponentId (item : Item) (p : Position) (v : String) :
    (item.setCell p v).opponentId = item.opponentId := by cases p <;> rfl

theorem setCell_oUser (item : Item) (p : Position) (v : String) :
    (item.setCell p v).oUser = item.oUser := by cases p <;> rfl

theorem setCell_statusDate (item : Item) (p : Position) (v : String) :
    (item.setCell p v).statusDate = item.statusDate := by cases p <;> rfl

theorem setCell_result (item : Item) (p : Position) (v : String) :
    (item.setCell p v).result = item.result := by cases p <;> rfl

theorem getCell_turnUpdate (item : Item) (t : String) (q : Position) :
    ({ item with turn := t } : Item).getCell q = item.getCell q := by
  cases q <;> rfl

/-- Complete case analysis of `updateBoardAndTurn` when it does not raise:
either the guard held, the returned flag is `True` and the new record is the
old one with the cell and `Turn` written, or the guard failed, the flag is
`False` and the record is unchanged. -/
theorem move_cases (item : Item) (pos : Position) (p : String) (b : Bool)
    (item2 : Item) (h : updateBoardAndTurn item pos p = some (b, item2)) :
    (b = true ∧ moveGuard item pos p ∧
      item2 = { item.setCell pos (if item.oUser = p then "O" else "X") with
                turn := if p = item.hostId then item.opponentId else item.hostId }) ∨
    (b = false ∧ ¬ moveGuard item pos p ∧ item2 = item) := by
  simp only [updateBoardAndTurn] at h
  by_cases hs : item.statusDate.toList.contains '_' = false
  · rw [if_pos hs] at h
    exact absurd h (by simp)
  · rw [if_neg hs] at h
    by_cases hG : moveGuard item pos p
    · rw [if_pos hG] at h
      simp only [Option.some.injEq, Prod.mk.injEq] at h
      exact Or.inl ⟨h.1.symm, hG, h.2.symm⟩
    · rw [if_neg hG] at h
      simp only [Option.some.injEq, Prod.mk.injEq] at h
      exact Or.inr ⟨h.1.symm, hG, h.2.symm⟩

/-! ## Claim theorems -/

/-- Claim C1: for every record, cell position and acting player,
`updateBoardAndTurn` (when it does not raise) returns `False` iff at least
one of the three guard conditions fails (`StatusDate` not beginning with
`IN_PROGRESS_`, `Turn` not the acting player, or the cell attribute already
present); an occupied cell is rejected regardless of whose turn it is; and a
rejected move leaves the record unchanged. -/
theorem applyMove_rejected_iff (item : Item) (pos : Position) (p : String)
    (b : Bool) (item2 : Item)
    (h : updateBoardAndTurn item pos p = some (b, item2)) :
    (b = false ↔ ¬ (strBeginsWith item.statusDate "IN_PROGRESS_" = true ∧
                    item.turn = p ∧ item.getCell pos = none)) ∧
    (item.getCell pos ≠ none → b = false) ∧
    (b = false → item2 = item) := by
  rcases move_cases item pos p b item2 h with ⟨hb, hg, _⟩ | ⟨hb, hg, hi⟩
  · subst hb
    refine ⟨⟨fun hc => absurd hc (by simp), fun hc => absurd hg hc⟩, ?_, by simp⟩
    intro hocc
    exact absurd hg.2.2 hocc
  · subst hb
    exact ⟨⟨fun _ => hg, fun _ => rfl⟩, fun _ => rfl, fun _ => hi⟩

/-- Claim C1 witness: a move on the occupied `TopLeft` cell of a concrete
in-progress record where it IS the acting player's turn is rejected and
leaves the record unchanged. -/
theorem applyMove_rejected_iff_witness :
    ((false : Bool) = false ↔ ¬ (strBeginsWith demoOccupied.statusDate "IN_PROGRESS_" = true ∧
                    demoOccupied.turn = "h" ∧ demoOccupied.getCell Position.topLeft = none)) ∧
    (demoOccupied.getCell Position.topLeft ≠ none → (false : Bool) = false) ∧
    ((false : Bool) = false → demoOccupied = demoOccupied) :=
  applyMove_rejected_iff demoOccupied Position.topLeft "h" false demoOccupied (by decide)

/-- Claim C3: a successful `updateBoardAndTurn` writes the target cell with
`"O"` when the acting player is `OUser` and `"X"` otherwise, sets `Turn` to
the other player (`OpponentId` when the acting player is `HostId`, else
`HostId`), and modifies nothing else: `GameId`, `HostId`, `OpponentId`,
`OUser`, `StatusDate`, `Result` and all other cells are unchanged. -/
theorem applyMove_success_effect (item : Item) (pos : Position) (p : String)
    (item2 : Item) (h : updateBoardAndTurn item pos p = some (true, item2)) :
    item2.getCell pos = some (if item.oUser = p then "O" else "X") ∧
    item2.turn = (if p = item.hostId then item.opponentId else item.hostId) ∧
    item2.gameId = item.gameId ∧
    item2.hostId = item.hostId ∧
    item2.opponentId = item.opponentId ∧
    item2.oUser = item.oUser ∧
    item2.statusDate = item.statusDate ∧
    item2.result = item.result ∧
    (∀ q : Position, q ≠ pos → item2.getCell q = item.getCell q) := by
  rcases move_cases item pos p true item2 h with ⟨_, _, hi⟩ | ⟨hb, _, _⟩
  · subst hi
    refine ⟨?_, rfl, setCell_gameId .., setCell_hostId .., setCell_opponentId ..,
      setCell_oUser .., setCell_statusDate .., setCell_result .., ?_⟩
    · rw [getCell_turnUpdate, getCell_setCell_self]
    · intro q hq
      rw [getCell_turnUpdate, getCell_setCell_ne _ _ _ _ hq]
  · exact absurd hb (by simp)

/-- Claim C3 witness: the host (who is `OUser`) moving on the empty
`TopLeft` of a concrete in-progress record writes `"O"` there, passes the
turn to the opponent, and changes nothing else. -/
theorem applyMove_success_effect_witness :
    ({ demoOpen.setCell Position.topLeft "O" with turn := "o" } : Item).getCell Position.topLeft
      = some (if demoOpen.oUser = "h" then "O" else "X") ∧
    ({ demoOpen.setCell Position.topLeft "O" with turn := "o" } : Item).turn
      = (if "h" = demoOpen.hostId then demoOpen.opponentId else demoOpen.hostId) ∧
    ({ demoOpen.setCell Position.topLeft "O" with turn := "o" } : Item).gameId = demoOpen.gameId ∧
    ({ demoOpen.setCell Position.topLeft "O" with turn := "o" } : Item).hostId = demoOpen.hostId ∧
    ({ demoOpen.setCell Position.topLeft "O" with turn := "o" } : Item).opponentId = demoOpen.opponentId ∧
    ({ demoOpen.setCell Position.topLeft "O" with turn := "o" } : Item).oUser = demoOpen.oUser ∧
    ({ demoOpen.setCell Position.topLeft "O" with turn := "o" } : Item).statusDate = demoOpen.statusDate ∧
    ({ demoOpen.setCell Position.topLeft "O" with turn := "o" } : Item).result = demoOpen.result ∧
    (∀ q : Position, q ≠ Position.topLeft →
      ({ demoOpen.setCell Position.topLeft "O" with turn := "o" } : Item).getCell q = demoOpen.getCell q) :=
  applyMove_success_effect demoOpen Position.topLeft "h"
    { demoOpen.setCell Position.topLeft "O" with turn := "o" } (by decide)

/-- Claim C5: when `Result` is already set, `changeGameToFinishedState`
returns success immediately without writing, so a second call (any inputs)
also succeeds, leaves the record — in particular `Result` — unchanged, and
issues no write either. -/
theorem finishGame_idempotent (item : Item) (r u now r2 u2 now2 : String)
    (s s2 : Bool) (h : item.result ≠ none) :
    changeGameToFinishedState item r u now s = ⟨true, item, false⟩ ∧
    changeGameToFinishedState (changeGameToFinishedState item r u now s).item
      r2 u2 now2 s2 = ⟨true, item, false⟩ := by
  have h1 : changeGameToFinishedState item r u now s = ⟨true, item, false⟩ := by
    rw [changeGameToFinishedState, if_pos h]
  refine ⟨h1, ?_⟩
  simp only [h1]
  rw [changeGameToFinishedState, if_pos h]

/-- Claim C5 witness: finishing an already-finished concrete record twice
succeeds both times, with no write and the record unchanged. -/
theorem finishGame_idempotent_witness :
    changeGameToFinishedState demoFinished "Win" "h" "t5" true = ⟨true, demoFinished, false⟩ ∧
    changeGameToFinishedState (changeGameToFinishedState demoFinished "Win" "h" "t5" true).item
      "Win" "h" "t6" true = ⟨true, demoFinished, false⟩ :=
  finishGame_idempotent demoFinished "Win" "h" "t5" "Win" "h" "t6" true true (by decide)

/-- Claim C6: on an unfinished record, `changeGameToFinishedState` sets
`Result` to the tie marker on `"Tie"`, to the acting player on `"Win"`, and
otherwise to the other player (`OpponentId` when the acting player is
`HostId`, else `HostId`), sets `StatusDate` to `"FINISHED_" + now` and
`Turn` to `"N/A"`, and writes unconditionally. -/
theorem finishGame_sets_result (item : Item) (r u now : String) (s : Bool)
    (h : item.result = none) :
    (changeGameToFinishedState item r u now s).item.result =
      some (if r = "Tie" then r else if r = "Win" then u
            else if item.hostId = u then item.opponentId else item.hostId) ∧
    (changeGameToFinishedState item r u now s).item.statusDate = "FINISHED_" ++ now ∧
    (changeGameToFinishedState item r u now s).item.turn = "N/A" ∧
    (changeGameToFinishedState item r u now s).wrote = true := by
  have hne : ¬ item.result ≠ none := by simp [h]
  rw [changeGameToFinishedState, if_neg hne]
  exact ⟨rfl, rfl, rfl, rfl⟩

/-- Claim C6 witness: finishing a concrete unfinished record with outcome
`"Lose"` by the host assigns `Result` to the opponent, stamps
`FINISHED_`-status and the terminal turn sentinel, and writes. -/
theorem finishGame_sets_result_witness :
    (changeGameToFinishedState demoOpen "Lose" "h" "t7" true).item.result =
      some (if "Lose" = "Tie" then "Lose" else if "Lose" = "Win" then "h"
            else if demoOpen.hostId = "h" then demoOpen.opponentId else demoOpen.hostId) ∧
    (changeGameToFinishedState demoOpen "Lose" "h" "t7" true).item.statusDate = "FINISHED_" ++ "t7" ∧
    (changeGameToFinishedState demoOpen "Lose" "h" "t7" true).item.turn = "N/A" ∧
    (changeGameToFinishedState demoOpen "Lose" "h" "t7" true).wrote = true :=
  finishGame_sets_result demoOpen "Lose" "h" "t7" true (by decide)

/-- Claim C9: `createNewGame` writes a record with `StatusDate =
"PENDING_" + now`, `Turn` the invitee, `OUser` the creator, `OpponentId` the
invitee, `HostId` the creator and `GameId` as the key. -/
theorem createNewGame_fields (gid creator invitee now : String) :
    (createNewGame gid creator invitee now).statusDate = "PENDING_" ++ now ∧
    (createNewGame gid creator invitee now).turn = invitee ∧
    (createNewGame gid creator invitee now).oUser = creator ∧
    (createNewGame gid creator invitee now).opponentId = invitee ∧
    (createNewGame gid creator invitee now).hostId = creator ∧
    (createNewGame gid creator invitee now).gameId = gid :=
  ⟨rfl, rfl, rfl, rfl, rfl, rfl⟩

/-- Claim C10: with a `None` user, both listing operations return the empty
list whatever the backend queries would have produced — equivalently,
without consulting the backend at all. -/
theorem noneUser_returns_empty (status : String)
    (queryHost queryOpp : String → String → List Item)
    (queryInvites : String → List Item) :
    getGamesWithStatus none status queryHost queryOpp = [] ∧
    getGameInvites none queryInvites = [] :=
  ⟨rfl, rfl⟩

/-- Claim C4 counterexample: a transport-level failure during
`rejectGameInvite` is converted into the non-error `False` return (the
record untouched) instead of propagating as an error, because the source
catches every exception there. -/
theorem rejectInvite_swallows_transport :
    rejectGameInvite demoOpen DbBehavior.transportError
      = Except.ok (false, some demoOpen) := rfl

/-- Claim C4 (amended): `acceptGameInvite` converts only the
conditional-check (guard) failure into the `False` return and propagates a
transport-level failure as an error; `rejectGameInvite`, however, catches
every exception, so a transport-level failure there also becomes the
`False` return. -/
theorem inviteTransport_propagation (item : Item) (now : String) :
    acceptGameInvite item now DbBehavior.transportError = Except.error () ∧
    (acceptGameInvite item now DbBehavior.normal = Except.ok (false, item) ↔
      strBeginsWith item.statusDate "PENDING_" = false) ∧
    rejectGameInvite item DbBehavior.transportError = Except.ok (false, some item) := by
  refine ⟨rfl, ?_, rfl⟩
  constructor
  · intro h
    by_cases hp : strBeginsWith item.statusDate "PENDING_" = true
    · simp only [acceptGameInvite, if_pos hp] at h
      simp at h
    · simpa using hp
  · intro h
    simp [acceptGameInvite, h]

/-! ## The merge and its limit behaviour -/

theorem drain_extends (rest : List Item) (games : List Item) (limit : Nat) :
    ∃ r, drain games rest limit = games ++ r := by
  induction rest generalizing games with
  | nil => exact ⟨[], by simp [drain]⟩
  | cons x xs ih =>
    by_cases h : games.length = limit
    · exact ⟨[], by simp [drain, h]⟩
    · obtain ⟨r, hr⟩ := ih (games ++ [x])
      exact ⟨[x] ++ r, by rw [drain, if_neg h, hr, List.append_assoc]⟩

theorem mergeLoop_extends (host opp : List Item) (g1 g2 : Option Item)
    (games : List Item) (limit : Nat) :
    ∃ rest, mergeLoop host opp g1 g2 games limit = games ++ rest := by
  induction host, opp, g1, g2, games, limit using mergeLoop.induct with
  | case1 opp g2 games limit hle =>
    cases g2 with
    | none =>
      obtain ⟨r, hr⟩ := drain_extends opp games limit
      refine ⟨r, ?_⟩
      rw [mergeLoop, dif_pos hle]
      exact hr
    | some g =>
      obtain ⟨r, hr⟩ := drain_extends opp (games ++ [g]) limit
      refine ⟨[g] ++ r, ?_⟩
      rw [mergeLoop, dif_pos hle]
      exact hr.trans (List.append_assoc games [g] r)
  | case2 games limit hle x hs =>
    obtain ⟨r, hr⟩ := drain_extends hs (games ++ [x]) limit
    refine ⟨[x] ++ r, ?_⟩
    rw [mergeLoop, dif_pos hle]
    exact hr.trans (List.append_assoc games [x] r)
  | case3 games limit hle x hs y os hgt ih =>
    obtain ⟨r, hr⟩ := ih
    refine ⟨[x] ++ r, ?_⟩
    rw [mergeLoop, dif_pos hle]
    show (if gameGreater x y then mergeLoop hs os none (some y) (games ++ [x]) limit
          else mergeLoop hs os (some x) none (games ++ [y]) limit) = games ++ ([x] ++ r)
    rw [if_pos hgt, hr, List.append_assoc]
  | case4 games limit hle x hs y os hgt ih =>
    obtain ⟨r, hr⟩ := ih
    refine ⟨[y] ++ r, ?_⟩
    rw [mergeLoop, dif_pos hle]
    show (if gameGreater x y then mergeLoop hs os none (some y) (games ++ [x]) limit
          else mergeLoop hs os (some x) none (games ++ [y]) limit) = games ++ ([y] ++ r)
    rw [if_neg hgt, hr, List.append_assoc]
  | case5 games limit hle x hs b os hgt ih =>
    obtain ⟨r, hr⟩ := ih
    refine ⟨[x] ++ r, ?_⟩
    rw [mergeLoop, dif_pos hle]
    show (if gameGreater x b then mergeLoop hs os none (some b) (games ++ [x]) limit
          else mergeLoop hs os (some x) none (games ++ [b]) limit) = games ++ ([x] ++ r)
    rw [if_pos hgt, hr, List.append_assoc]
  | case6 games limit hle x hs b os hgt ih =>
    obtain ⟨r, hr⟩ := ih
    refine ⟨[b] ++ r, ?_⟩
    rw [mergeLoop, dif_pos hle]
    show (if gameGreater x b then mergeLoop hs os none (some b) (games ++ [x]) limit
          else mergeLoop hs os (some x) none (games ++ [b]) limit) = games ++ ([b] ++ r)
    rw [if_neg hgt, hr, List.append_assoc]
  | case7 games limit hle a hs =>
    obtain ⟨r, hr⟩ := drain_extends hs (games ++ [a]) limit
    refine ⟨[a] ++ r, ?_⟩
    rw [mergeLoop, dif_pos hle]
    exact hr.trans (List.append_assoc games [a] r)
  | case8 games limit hle a hs y os hgt ih =>
    obtain ⟨r, hr⟩ := ih
    refine ⟨[a] ++ r, ?_⟩
    rw [mergeLoop, dif_pos hle]
    show (if gameGreater a y then mergeLoop hs os none (some y) (games ++ [a]) limit
          else mergeLoop hs os (some a) none (games ++ [y]) limit) = games ++ ([a] ++ r)
    rw [if_pos hgt, hr, List.append_assoc]
  | case9 games limit hle a hs y os hgt ih =>
    obtain ⟨r, hr⟩ := ih
    refine ⟨[y] ++ r, ?_⟩
    rw [mergeLoop, dif_pos hle]
    show (if gameGreater a y then mergeLoop hs os none (some y) (games ++ [a]) limit
          else mergeLoop hs os (some a) none (games ++ [y]) limit) = games ++ ([y] ++ r)
    rw [if_neg hgt, hr, List.append_assoc]
  | case10 games limit hle a hs b os hgt ih =>
    obtain ⟨r, hr⟩ := ih
    refine ⟨[a] ++ r, ?_⟩
    rw [mergeLoop, dif_pos hle]
    show (if gameGreater a b then mergeLoop hs os none (some b) (games ++ [a]) limit
          else mergeLoop hs os (some a) none (games ++ [b]) limit) = games ++ ([a] ++ r)
    rw [if_pos hgt, hr, List.append_assoc]
  | case11 games limit hle a hs b os hgt ih =>
    obtain ⟨r, hr⟩ := ih
    refine ⟨[b] ++ r, ?_⟩
    rw [mergeLoop, dif_pos hle]
    show (if gameGreater a b then mergeLoop hs os none (some b) (games ++ [a]) limit
          else mergeLoop hs os (some a) none (games ++ [b]) limit) = games ++ ([b] ++ r)
    rw [if_neg hgt, hr, List.append_assoc]
  | case12 host opp g1 g2 games limit hle =>
    refine ⟨[], ?_⟩
    rw [mergeLoop.eq_def, dif_neg hle, List.append_nil]

/-- Claim C2 (code defect exhibited): for the sorted inputs
`A = [9]`, `B = [8, 7, 6]` and limit 1, `mergeQueries` returns all four
records instead of `min(1, 4) = 1`: the loop runs while
`len(games) <= limit`, and the iterator-exhaustion branch appends the
pending head unconditionally, after which the drain's exact
`len(games) == limit` stop test can never fire again. -/
theorem mergeQueries_overruns_limit :
    mergeQueries [demoGame "a" "9"] [demoGame "b" "8", demoGame "c" "7", demoGame "d" "6"] 1 =
      [demoGame "a" "9", demoGame "b" "8", demoGame "c" "7", demoGame "d" "6"] ∧
    (mergeQueries [demoGame "a" "9"] [demoGame "b" "8", demoGame "c" "7", demoGame "d" "6"] 1).length = 4 ∧
    min 1 (([demoGame "a" "9"] : List Item).length +
      ([demoGame "b" "8", demoGame "c" "7", demoGame "d" "6"] : List Item).length) = 1 := by
  have h1 : mergeQueries [demoGame "a" "9"] [demoGame "b" "8", demoGame "c" "7", demoGame "d" "6"] 1 =
      [demoGame "a" "9", demoGame "b" "8", demoGame "c" "7", demoGame "d" "6"] := by
    simp [mergeQueries, mergeLoop, drain, gameGreater, demoGame]
    decide
  refine ⟨h1, ?_, rfl⟩
  rw [h1]
  rfl

/-- Claim C8: whenever the two pending heads have equal `StatusDate`, the
comparison `game_one > game_two` holds, so the element from the sequence
passed as the FIRST argument (the host-indexed stream) is emitted first — a
fixed deterministic tie-break. -/
theorem mergeQueries_tie_emits_first (a b : Item) (hs os : List Item)
    (limit : Nat) (heq : a.statusDate = b.statusDate) :
    (mergeQueries (a :: hs) (b :: os) limit).head? = some a := by
  have hgt : gameGreater a b = true := by
    simp [gameGreater, heq]
  obtain ⟨r, hr⟩ := mergeLoop_extends hs os none (some b) ([] ++ [a]) limit
  unfold mergeQueries
  rw [mergeLoop, dif_pos (show ([] : List Item).length ≤ limit from Nat.zero_le limit)]
  show (if gameGreater a b then mergeLoop hs os none (some b) ([] ++ [a]) limit
        else mergeLoop hs os (some a) none ([] ++ [b]) limit).head? = some a
  rw [if_pos hgt, hr]
  rfl

/-- Claim C8 witness: the concrete equal-`StatusDate` merge emits the first
argument's record first. -/
theorem mergeQueries_tie_emits_first_witness :
    (mergeQueries [demoGame "a" "T"] [demoGame "b" "T"] 3).head? = some (demoGame "a" "T") :=
  mergeQueries_tie_emits_first (demoGame "a" "T") (demoGame "b" "T") [] [] 3 rfl

/-! ## Turn alternation under successful moves -/

/-- A chain of successful moves preserves `HostId` and `OpponentId`; and if
the starting record's turn is its opponent with distinct players, the turn
after `n` moves is the opponent for even `n` and the host for odd `n`. -/
theorem moveChain_turn (s : Item) (n : Nat) (t : Item) (hc : MoveChain s n t) :
    t.hostId = s.hostId ∧ t.opponentId = s.opponentId ∧
    (s.turn = s.opponentId → s.hostId ≠ s.opponentId →
      t.turn = if n % 2 = 0 then s.opponentId else s.hostId) := by
  induction hc with
  | refl =>
    exact ⟨rfl, rfl, fun h1 _ => by simpa using h1⟩
  | step hcc hmove ih =>
    rename_i n t u
    obtain ⟨hhost, hopp, hturn⟩ := ih
    obtain ⟨pos, p, hm⟩ := hmove
    rcases move_cases _ pos p _ _ hm with ⟨_, hg, hu⟩ | ⟨hb, _, _⟩
    · subst hu
      refine ⟨by simpa [setCell_hostId] using hhost,
              by simpa [setCell_opponentId] using hopp, ?_⟩
      intro h1 hne
      have hp : t.turn = p := hg.2.1
      have ht := hturn h1 hne
      show (if p = t.hostId then t.opponentId else t.hostId) =
           (if (n + 1) % 2 = 0 then s.opponentId else s.hostId)
      by_cases hpar : n % 2 = 0
      · have hpe : p = s.opponentId := by rw [← hp, ht, if_pos hpar]
        have hne2 : p ≠ t.hostId := by
          rw [hpe, hhost]
          exact fun hcon => hne hcon.symm
        rw [if_neg hne2, hhost, if_neg (by omega)]
      · have hpe : p = s.hostId := by rw [← hp, ht, if_neg hpar]
        have heq2 : p = t.hostId := by rw [hpe, hhost]
        rw [if_pos heq2, hopp, if_pos (by omega)]
    · exact absurd hb (by simp)

/-- Claim C7 counterexample: immediately after `createNewGame` — zero
successful moves, an even count — `Turn` is the invitee (`OpponentId`), not
`HostId`: the host does not move first. -/
theorem turn_counterexample :
    MoveChain (createNewGame "g" "h" "o" "t0") 0 (createNewGame "g" "h" "o" "t0") ∧
    (createNewGame "g" "h" "o" "t0").turn ≠ (createNewGame "g" "h" "o" "t0").hostId ∧
    (createNewGame "g" "h" "o" "t0").turn = (createNewGame "g" "h" "o" "t0").opponentId :=
  ⟨MoveChain.refl _, by decide, rfl⟩

/-- Claim C7 (amended): starting from a freshly created invite that has been
accepted, with distinct players, after N consecutive successful moves `Turn`
equals `OpponentId` (the invitee) when N is even and `HostId` when N is odd:
the invitee moves first, because `createNewGame` assigns the initial turn to
the invitee, and `Turn` then alternates strictly between the two players. -/
theorem turn_alternation (gid h o t0 t1 : String) (s1 t : Item) (n : Nat)
    (hne : h ≠ o)
    (hacc : acceptGameInvite (createNewGame gid h o t0) t1 DbBehavior.normal
      = Except.ok (true, s1))
    (hchain : MoveChain s1 n t) :
    t.turn = if n % 2 = 0 then o else h := by
  have hs1 : s1 = { createNewGame gid h o t0 with statusDate := "IN_PROGRESS_" ++ t1 } := by
    simp only [acceptGameInvite] at hacc
    by_cases hp : strBeginsWith (createNewGame gid h o t0).statusDate "PENDING_" = true
    · rw [if_pos hp] at hacc
      simp only [Except.ok.injEq, Prod.mk.injEq, true_and] at hacc
      exact hacc.symm
    · rw [if_neg hp] at hacc
      simp at hacc
  obtain ⟨hhost, hopp, hturn⟩ := moveChain_turn s1 n t hchain
  have h1 : s1.turn = s1.opponentId := by
    rw [hs1]
    rfl
  have h2 : s1.hostId ≠ s1.opponentId := by
    rw [hs1]
    exact hne
  have h3 := hturn h1 h2
  rw [h3, hs1]
  rfl

/-- Claim C7 (amended) witness: one successful move by the invitee on a
concrete accepted invite leaves the host to move (N = 1, odd). -/
theorem turn_alternation_witness :
    demoMoved.turn = if 1 % 2 = 0 then "o" else "h" :=
  turn_alternation "g" "h" "o" "t0" "t1" demoAccepted demoMoved 1 (by decide) (by rfl)
    (MoveChain.step (MoveChain.refl demoAccepted) ⟨Position.topLeft, "o", by decide⟩)
